import Mathlib

/-!
Verification development for the edb-debugger core: the instruction stream
navigator (`length_disasm_back` in `src/widgets/QDisassemblyView.cpp`), the
x86 and ARM architecture processors (`src/arch/x86-generic/ArchProcessor.cpp`,
`src/arch/arm-generic/ArchProcessor.cpp`) and the UNIX debugger-core
primitives (`plugins/DebuggerCore/unix/DebuggerCoreUNIX.cpp`).

Machine integers are modelled as `Nat`/`Int` with explicit reduction modulo
`2 ^ 64` (for `edb::address_t`) or `2 ^ 32` (for ARM `uint32_t`) where
overflow matters.  Byte buffers are `List Nat`.  The third-party instruction
decoder (capstone, behind `edb::Instruction`) is an external collaborator and
is modelled as an abstract pair of functions (validity flag and byte length
of the instruction decoded from a byte window).
-/

/-- Unsigned 64-bit wrap-around: the value of an `edb::address_t` expression
computed in `Int`. -/
def u64 (x : Int) : Nat := (x % (2 ^ 64 : Int)).toNat

namespace Navigator

/-- Abstract instruction decoder: `edb::Instruction inst(first, last, 0)`
decodes the byte window `[first, last)`; `valid w` models `bool(inst)` and
`byte_size w` models `inst.byte_size()` for the window `w`. -/
structure Decoder where
  valid : List Nat → Bool
  byte_size : List Nat → Nat

/-- The byte window `[buf+a, buf+b)` handed to the decoder. -/
def window (buf : List Nat) (a b : Nat) : List Nat := (buf.drop a).take (b - a)

/-- The stage-1 success test of `length_disasm_back`:
`inst && offs + inst.byte_size() == curInstOffset` for the instruction decoded
from `[buf+offs, buf+curInstOffset)`. -/
def qualifies (D : Decoder) (buf : List Nat) (cur offs : Nat) : Bool :=
  D.valid (window buf offs cur) && (offs + D.byte_size (window buf offs cur) == cur)

/-- Stage 1 of `length_disasm_back` (QDisassemblyView.cpp): the loop
`for(size_t offs = curInstOffset-1; offs != size_t(-1); --offs)` runs over
offsets `cur-1, ..., 0`; each qualifying offset overwrites `finalSize` with
the decoded byte length. -/
def stage1 (D : Decoder) (buf : List Nat) (cur : Nat) : Nat :=
  ((List.range cur).reverse).foldl
    (fun finalSize offs =>
      if qualifies D buf cur offs then D.byte_size (window buf offs cur) else finalSize)
    0

/-- Stage 2 of `length_disasm_back`: look for a previous instruction plus a
re-decoded current instruction which together end exactly at the end of the
original current instruction; each hit overwrites `finalSize` with
`curInstOffset - offs`. -/
def stage2 (D : Decoder) (buf : List Nat) (cur : Nat) : Nat :=
  let originalCurrentSize := D.byte_size (window buf cur buf.length)
  ((List.range cur).reverse).foldl
    (fun finalSize offs =>
      let wPrev := window buf offs cur
      if D.valid wPrev then
        let szPrev := D.byte_size wPrev
        let wNewCur := window buf (offs + szPrev) buf.length
        if D.valid wNewCur &&
            (offs + szPrev + D.byte_size wNewCur == cur + originalCurrentSize) then
          cur - offs
        else finalSize
      else finalSize)
    0

/-- Stage 3 of `length_disasm_back`: scan backward and return at the first
offset whose decode (in the window reaching to the end of the buffer) is
invalid; the returned delta is `curInstOffset - offs`. -/
def stage3 (D : Decoder) (buf : List Nat) (cur : Nat) : Nat :=
  match ((List.range cur).reverse).find?
      (fun offs => ! D.valid (window buf offs buf.length)) with
  | some offs => cur - offs
  | none => 0

/-- `length_disasm_back(buf, bufSize, curInstOffset)`: stages tried in order,
each consulted only when every earlier stage returned 0. -/
def length_disasm_back (D : Decoder) (buf : List Nat) (cur : Nat) : Nat :=
  let s1 := stage1 D buf cur
  if s1 ≠ 0 then s1
  else
    let s2 := stage2 D buf cur
    if s2 ≠ 0 then s2
    else stage3 D buf cur

/-- Concrete decoder used to instantiate universally quantified statements:
a window decodes to a valid instruction iff its length is 1 or 2, and the
byte length of a decode is the window length. -/
def sampleDecoder : Decoder :=
  ⟨fun w => decide (w.length = 1 ∨ w.length = 2), fun w => w.length⟩

/-- Concrete four-byte buffer used to instantiate universally quantified
statements. -/
def sampleBuf : List Nat := [0, 0, 0, 0]

end Navigator

namespace X86

/-- Capstone x86 register identifiers as used through `edb::Operand::Register`:
the distinguished `X86_REG_INVALID` and `X86_REG_RIP` values, and all other
registers by their enumerator value. -/
inductive Reg where
  | invalid
  | rip
  | reg (id : Nat)
deriving DecidableEq

/-- The `edb::Operand` tagged union as interpreted by the x86
`get_effective_address` and `is_filling` (general_type plus the payload each
case reads).  `invalidOp` is an operand with `op.valid() == false`. -/
inductive Operand where
  | register (r : Reg)
  | expression (base index : Reg) (scale : Nat) (disp : Int)
  | absolute (offset : Nat)
  | immediate (value : Int)
  | rel (target : Nat)
  | invalidOp
deriving DecidableEq

/-- The register state consulted by the x86 `get_effective_address`: a partial
map from register to value (a register missing from the state models an
invalid `Register` lookup result), plus the `gs_base`/`fs_base` entries. -/
structure State where
  get : Reg → Option Nat
  gs_base : Option Nat
  fs_base : Option Nat

/-- The two `PREFIX_GS`/`PREFIX_FS` blocks at the end of the `TYPE_EXPRESSION`
and `TYPE_ABSOLUTE` cases: each prefix bit, when present, requires the corresponding
segment base register and returns `(0, ok=false)` when it cannot be resolved. -/
def segmentAdjust (ret : Nat) (prefGS prefFS : Bool) (st : State) : Nat × Bool :=
  match (if prefGS then st.gs_base.map (fun g => u64 ((ret : Int) + g)) else some ret) with
  | none => (0, false)
  | some ret1 =>
    match (if prefFS then st.fs_base.map (fun f => u64 ((ret1 : Int) + f)) else some ret1) with
    | none => (0, false)
    | some ret2 => (ret2, true)

/-- `get_effective_address(op, state, ok)` from
`src/arch/x86-generic/ArchProcessor.cpp` (the returned address paired with the
final value of `ok`).  `insnSize` is `op.owner()->size()`; `prefGS`/`prefFS`
are the `PREFIX_GS`/`PREFIX_FS` bits of `op.owner()->prefix()`.  An
unresolvable base or index register leaves the corresponding contribution at
its initialization value 0 (`base = 0; if(!!baseR) base = ...`); the
`valueAsAddress()` of an unresolved register operand is likewise modelled as
the default-constructed value 0. -/
def get_effective_address (op : Operand) (insnSize : Nat) (prefGS prefFS : Bool)
    (st : State) : Nat × Bool :=
  match op with
  | .register r => ((st.get r).getD 0, true)
  | .expression base index scale disp =>
    let baseV := match st.get base with | some v => v | none => 0
    let indexV := match st.get index with | some v => v | none => 0
    let baseV := if base = Reg.rip then baseV + insnSize else baseV
    let ret := u64 ((baseV : Int) + (indexV : Int) * (scale : Int) + disp)
    segmentAdjust ret prefGS prefFS st
  | .absolute offset => segmentAdjust offset prefGS prefFS st
  | .immediate _ => (0, true)
  | .rel target => (target, true)
  | .invalidOp => (0, true)

/-- The instruction operations distinguished by `ArchProcessor::is_filling`:
`X86_INS_NOP`, `X86_INS_INT3`, `X86_INS_LEA`, `X86_INS_MOV`, anything else. -/
inductive Operation where
  | nop
  | int3
  | lea
  | mov
  | other (id : Nat)
deriving DecidableEq

/-- The slice of `edb::Instruction` consulted by `is_filling`: validity,
operation, operand array and raw bytes (`inst.size()` is `bytes.length`). -/
structure Instruction where
  valid : Bool
  operation : Operation
  operands : List Operand
  bytes : List Nat

/-- Operand validity check `op.valid()`. -/
def opValid : Operand → Bool
  | .invalidOp => false
  | _ => true

/-- `ArchProcessor::is_filling(inst)` from
`src/arch/x86-generic/ArchProcessor.cpp`; `zerosAreFilling` is the
`edb::v1::config().zeros_are_filling` option. -/
def is_filling (inst : Instruction) (zerosAreFilling : Bool) : Bool :=
  if inst.valid then
    let op0 := inst.operands.getD 0 .invalidOp
    let op1 := inst.operands.getD 1 .invalidOp
    let ret :=
      match inst.operation with
      | .nop => true
      | .int3 => true
      | .lea =>
        if opValid op0 && opValid op1 then
          match op0, op1 with
          | .register reg1, .expression base index scale disp =>
            if scale = 1 then
              if disp = 0 then
                if base = Reg.invalid then reg1 == index
                else if index = Reg.invalid then reg1 == base
                else false
              else false
            else false
          | _, _ => false
        else false
      | .mov =>
        if opValid op0 && opValid op1 then
          match op0, op1 with
          | .register r1, .register r2 => r1 == r2
          | _, _ => false
        else false
      | _ => false
    if ret then true
    else if zerosAreFilling then decide (inst.bytes = [0, 0])
    else false
  else
    match inst.bytes with
    | [b] => b == 0
    | _ => false

/-- Register state with only `rip = 0x1000`, used to instantiate the
RIP-relative addressing property at its concrete test vector. -/
def ripState : State :=
  ⟨fun r => if r = Reg.rip then some 0x1000 else none, none, none⟩

/-- Register state resolving no register at all, used to exhibit the x86
behaviour on unresolvable registers. -/
def emptyState : State := ⟨fun _ => none, none, none⟩

end X86

/-- Unsigned 32-bit wrap-around for ARM `uint32_t` arithmetic. -/
def u32 (x : Nat) : Nat := x % 2 ^ 32

/-- Unsigned 32-bit bitwise complement. -/
def not32 (x : Nat) : Nat := 2 ^ 32 - 1 - x % 2 ^ 32

/-- Unsigned 32-bit subtraction with wrap-around. -/
def sub32 (a b : Nat) : Nat := (a % 2 ^ 32 + 2 ^ 32 - b % 2 ^ 32) % 2 ^ 32

/-- Conversion of a signed `int` value to `uint32_t` (two's-complement
wrap-around), as performed by the usual arithmetic conversions when an `int`
meets a `uint32_t` operand. -/
def intToU32 (x : Int) : Nat := (x % (2 ^ 32 : Int)).toNat

namespace ARM

/-- Capstone ARM register identifiers as consumed by
`capstoneRegToGPRIndex`: `ARM_REG_R0 .. ARM_REG_R15` and everything else
(the id of an `other` register stands for its capstone enumerator value). -/
inductive CapReg where
  | gpr (n : Fin 16)
  | other (id : Nat)
deriving DecidableEq

/-- `capstoneRegToGPRIndex(capstoneReg, ok)` from
`src/arch/arm-generic/ArchProcessor.cpp`: yields the GPR index 0..15 with
`ok = true`, or `(-1, false)` for any other register. -/
def capstoneRegToGPRIndex : CapReg → Int × Bool
  | .gpr n => ((n : Nat), true)
  | .other _ => (-1, false)

/-- Raw id printed into the bad-operand-register error message
(`operand->reg` as an integer); for GPRs a stand-in for the capstone
enumerator value. -/
def capRegId : CapReg → Nat
  | .gpr n => (n : Nat)
  | .other id => id

/-- The `arm_shifter` values distinguished by `shift`. -/
inductive Shifter where
  | invalid
  | asr
  | asr_reg
  | lsl
  | lsl_reg
  | lsr
  | lsr_reg
  | ror
  | ror_reg
  | rrx
  | rrx_reg
deriving DecidableEq

/-- The `shift(x, type, shiftAmount, carryFlag)` helper of the ARM
architecture processor, on `uint32_t` values. -/
def shift (x0 : Nat) (type : Shifter) (shiftAmount : Nat) (carryFlag : Bool) : Nat :=
  let highBit : Nat := 2 ^ 31
  let x := u32 x0
  let N := shiftAmount
  match type with
  | .invalid => x
  | .asr | .asr_reg =>
    if N = 32 then sub32 0 ((x &&& highBit) >>> 31)
    else u32 ((x >>> N) ||| not32 (sub32 ((x &&& highBit) >>> N) 1))
  | .lsl | .lsl_reg => u32 (x <<< N)
  | .lsr | .lsr_reg => if N = 32 then 0 else x >>> N
  | .ror | .ror_reg => u32 ((x >>> N) ||| u32 (x <<< (sub32 0 N &&& 31)))
  | .rrx | .rrx_reg => u32 (((if carryFlag then 1 else 0) <<< 31) ||| (x >>> 1))

/-- The ARM `edb::Operand` shapes distinguished by
`ArchProcessor::get_effective_address`: a register operand, a memory
expression (base, index, scale, displacement and shift), any other valid
operand (`otherOp`), and an invalid operand. -/
inductive Operand where
  | register (r : CapReg)
  | expression (base index : CapReg) (scale disp : Int) (shiftType : Shifter) (shiftValue : Nat)
  | otherOp
  | invalidOp
deriving DecidableEq

/-- The slice of an ARM `edb::Instruction` consulted here: validity, the
virtual address `rva()` and the mnemonic used in error messages. -/
structure Instruction where
  valid : Bool
  rva : Nat
  mnemonic : String

/-- The ARM register state: `gp_register(i)` as a partial map from the integer
GPR index, plus the optional CPSR (`flags_register()`). -/
structure State where
  gp : Int → Option Nat
  flags : Option Nat

/-- The `Result<edb::address_t>` values produced by the ARM architecture
processor: a value, or an error message. -/
inductive EdbResult where
  | ok (value : Nat)
  | err (message : String)
deriving DecidableEq

/-- The `operator bool` of `Result<edb::address_t>`: true means success. -/
def EdbResult.isOk : EdbResult → Bool
  | .ok _ => true
  | .err _ => false

/-- The CPU modes distinguished by `adjustR15Value`
(`IDebugger::CPUMode`): ARM32, Thumb, and any other mode (the `default`
branch of the switch). -/
inductive CPUMode where
  | arm32
  | thumb
  | other
deriving DecidableEq

/-- `adjustR15Value(insn, regIndex, value)` from
`src/arch/arm-generic/ArchProcessor.cpp`; the CPU mode read from the global
`edb::v1::debugger_core->cpu_mode()` is passed as a parameter. -/
def adjustR15Value (insn : Instruction) (regIndex : Int) (value : Nat)
    (cpuMode : CPUMode) : EdbResult :=
  if regIndex = 15 then
    match cpuMode with
    | .arm32 => .ok (u64 ((insn.rva : Int) + 8))
    | .thumb => .ok (u64 ((insn.rva : Int) + 4))
    | .other =>
      .err "calculating effective address in modes other than ARM and Thumb is not supported."
  else .ok value

/-- `ArchProcessor::get_effective_address(insn, operand, state)` from
`src/arch/arm-generic/ArchProcessor.cpp` (the `Result<edb::address_t>`
overload); the CPU mode global is passed as a parameter.  The operand-index
part of the not-implemented message is omitted.  The index contribution
`operand->mem.scale * shift(...)` is `int * uint32_t`: the scale (1 or -1,
the latter for subtracted-index operands) is converted to `uint32_t` and the
product wraps mod `2 ^ 32` before being zero-extended into the 64-bit
address sum. -/
def get_effective_address (insn : Instruction) (operand : Operand) (st : State)
    (cpuMode : CPUMode) : EdbResult :=
  if operand = Operand.invalidOp || !insn.valid then .err "operand is invalid"
  else
    match operand with
    | .register r =>
      let (regIndex, ok) := capstoneRegToGPRIndex r
      if !ok then
        .err s!"bad operand register for instruction {insn.mnemonic}: {capRegId r}."
      else
        match st.gp regIndex with
        | none => .err s!"failed to get register r{regIndex}."
        | some value => adjustR15Value insn regIndex value cpuMode
    | .expression base index scale disp shiftType shiftValue =>
      let (baseIndex, okB) := capstoneRegToGPRIndex base
      match (if okB then st.gp baseIndex else none) with
      | none => .err s!"failed to get register r{baseIndex}."
      | some baseVal =>
        let (indexIndex, okI) := capstoneRegToGPRIndex index
        if okI && (st.gp indexIndex).isNone then
          .err s!"failed to get register r{indexIndex}."
        else
          let indexR : Option Nat := if okI then st.gp indexIndex else none
          let cpsrR := st.flags
          if cpsrR.isNone && (shiftType == Shifter.rrx || shiftType == Shifter.rrx_reg) then
            .err "failed to get CPSR."
          else
            let C : Bool := match cpsrR with
              | some v => decide (v &&& 0x20000000 ≠ 0)
              | none => false
            match adjustR15Value insn baseIndex baseVal cpuMode with
            | .ok adjusted =>
              let addr : Int := (adjusted : Int) + disp
              let addr : Int :=
                match indexR with
                | some indexVal =>
                  addr + (u32 (intToU32 scale * shift indexVal shiftType shiftValue C) : Int)
                | none => addr
              .ok (u64 addr)
            | .err m => .err m
    | _ =>
      .err s!"getting effective address for operand of instruction {insn.mnemonic} is not implemented"

/-- `is_jcc_taken(cpsr, cond)` from `src/arch/arm-generic/ArchProcessor.cpp`:
the ARM conditional-execution truth table, a switch on `cond & 0xe` followed
by a negation when `cond & 1` is set. -/
def is_jcc_taken (cpsr : Nat) (cond : Nat) : Bool :=
  let N : Bool := (cpsr &&& 0x80000000) != 0
  let Z : Bool := (cpsr &&& 0x40000000) != 0
  let C : Bool := (cpsr &&& 0x20000000) != 0
  let V : Bool := (cpsr &&& 0x10000000) != 0
  let taken : Bool :=
    if cond &&& 0xe = 0x0 then Z
    else if cond &&& 0xe = 0x2 then C
    else if cond &&& 0xe = 0x4 then N
    else if cond &&& 0xe = 0x6 then V
    else if cond &&& 0xe = 0x8 then C && !Z
    else if cond &&& 0xe = 0xa then N == V
    else if cond &&& 0xe = 0xc then !Z && (N == V)
    else if cond &&& 0xe = 0xe then true
    else false
  if cond &&& 1 != 0 then !taken else taken

/-- A concrete ARM instruction at virtual address `0x2000`, used to
instantiate the PC-relative effective-address property. -/
def insnAt2000 : Instruction := ⟨true, 0x2000, "ldr"⟩

/-- ARM register state in which only `r15` resolves (to 0) and no CPSR is
available. -/
def pcOnlyState : State := ⟨fun i => if i = 15 then some 0 else none, none⟩

/-- ARM register state resolving no register at all. -/
def armEmptyState : State := ⟨fun _ => none, none⟩

end ARM

namespace Unix

/-- The static `Exceptions[]` signal catalog of
`plugins/DebuggerCore/unix/DebuggerCoreUNIX.cpp`, in source order, with the
numeric values the platform signal constants have on Linux/glibc (the
compile-time instantiation the source builds via its `#ifdef` blocks).  Note
that `SIGPOLL` and `SIGIO` share the value 29. -/
def Exceptions : List (Int × String) :=
  [ (6, "SIGABRT"), (14, "SIGALRM"), (26, "SIGVTALRM"), (27, "SIGPROF"),
    (7, "SIGBUS"), (17, "SIGCHLD"), (18, "SIGCONT"), (8, "SIGFPE"),
    (1, "SIGHUP"), (4, "SIGILL"), (2, "SIGINT"), (9, "SIGKILL"),
    (13, "SIGPIPE"), (3, "SIGQUIT"), (11, "SIGSEGV"), (19, "SIGSTOP"),
    (15, "SIGTERM"), (20, "SIGTSTP"), (21, "SIGTTIN"), (22, "SIGTTOU"),
    (10, "SIGUSR1"), (12, "SIGUSR2"), (29, "SIGPOLL"), (31, "SIGSYS"),
    (5, "SIGTRAP"), (23, "SIGURG"), (24, "SIGXCPU"), (25, "SIGXFSZ"),
    (34, "SIGRTMIN"), (64, "SIGRTMAX"), (29, "SIGIO"), (16, "SIGSTKFLT"),
    (28, "SIGWINCH") ]

/-- `DebuggerCoreUNIX::exceptionName(value)`: the ranged-for over the catalog
returning the name of the first entry with the given value, or an empty
string. -/
def exceptionName : List (Int × String) → Int → String
  | [], _ => ""
  | e :: rest, value => if value = e.1 then e.2 else exceptionName rest value

/-- `DebuggerCoreUNIX::exceptionValue(name)`: the ranged-for over the catalog
returning the value of the first entry with the given name, or -1. -/
def exceptionValue : List (Int × String) → String → Int
  | [], _ => -1
  | e :: rest, name => if name = e.2 then e.1 else exceptionValue rest name

/-- The `EINTR` errno value. -/
def EINTR : Int := 4

/-- The retry condition of the `native::` wrappers:
`ret == -1 && errno == EINTR`, over an observed (return value, errno) pair. -/
def isEintrFailure (r : Int × Int) : Bool := r.1 == -1 && r.2 == EINTR

/-- The shared do-while retry loop of `native::read`, `native::write`,
`native::select` and `native::waitpid`: the underlying OS call is modelled by
the list of (return value, errno) pairs its successive invocations produce;
the loop reissues the call while the result is an EINTR failure.  `none`
models the loop never terminating (every attempt in the list interrupted). -/
def retryIntr : List (Int × Int) → Option (Int × Int)
  | [] => none
  | r :: rest => if isEintrFailure r then retryIntr rest else some r

/-- `native::read(fd, buf, count)`, with the underlying `::read` results
supplied as a list. -/
def native_read (attempts : List (Int × Int)) : Option (Int × Int) := retryIntr attempts

/-- `native::write(fd, buf, count)`, with the underlying `::write` results
supplied as a list. -/
def native_write (attempts : List (Int × Int)) : Option (Int × Int) := retryIntr attempts

/-- `native::select(nfds, rfds, wfds, efds, timeout)`, with the underlying
`::select` results supplied as a list. -/
def native_select (attempts : List (Int × Int)) : Option (Int × Int) := retryIntr attempts

/-- `native::waitpid(pid, status, options)`, with the underlying `::waitpid`
results supplied as a list. -/
def native_waitpid (attempts : List (Int × Int)) : Option (Int × Int) := retryIntr attempts

end Unix

namespace Navigator

theorem foldr_if_range (p : Nat → Bool) (v : Nat → Nat) :
    ∀ (n : Nat) (init : Nat),
      (List.range n).foldr (fun offs acc => if p offs then v offs else acc) init
        = ((List.range n).find? p).elim init v := by
  intro n
  induction n with
  | zero => intro init; rfl
  | succ n ih =>
    intro init
    rw [List.range_succ, List.foldr_append, List.find?_append, ih]
    cases h : (List.range n).find? p with
    | some o => simp
    | none =>
      cases hp : p n <;> simp [List.find?, hp]

theorem find?_range_min (p : Nat → Bool) :
    ∀ (n o : Nat), (List.range n).find? p = some o →
      o < n ∧ p o = true ∧ ∀ k, k < o → p k = false := by
  intro n
  induction n with
  | zero => intro o h; simp [List.range_zero] at h
  | succ n ih =>
    intro o h
    rw [List.range_succ, List.find?_append] at h
    cases h1 : (List.range n).find? p with
    | some o' =>
      rw [h1] at h
      simp at h
      rcases ih o' h1 with ⟨hlt, hp, hmin⟩
      subst h
      exact ⟨Nat.lt_succ_of_lt hlt, hp, hmin⟩
    | none =>
      rw [h1] at h
      simp [List.find?] at h
      cases hp : p n with
      | false => rw [hp] at h; simp at h
      | true =>
        rw [hp] at h
        simp at h
        subst h
        refine ⟨Nat.lt_succ_self _, hp, ?_⟩
        intro k hk
        have := (List.find?_eq_none.mp h1) k (List.mem_range.mpr hk)
        simpa using this

theorem find?_range_exists (p : Nat → Bool) (n o : Nat)
    (ho : o < n) (hp : p o = true) : ∃ o', (List.range n).find? p = some o' := by
  cases h : (List.range n).find? p with
  | some o' => exact ⟨o', rfl⟩
  | none =>
    exact absurd hp (by simpa using (List.find?_eq_none.mp h) o (List.mem_range.mpr ho))

theorem stage1_eq_find (D : Decoder) (buf : List Nat) (cur : Nat) :
    stage1 D buf cur
      = ((List.range cur).find? (qualifies D buf cur)).elim 0
          (fun offs => D.byte_size (window buf offs cur)) := by
  unfold stage1
  rw [List.foldl_reverse]
  exact foldr_if_range (qualifies D buf cur) (fun offs => D.byte_size (window buf offs cur)) cur 0

theorem qualifies_size (D : Decoder) (buf : List Nat) (cur offs : Nat)
    (h : qualifies D buf cur offs = true) :
    D.byte_size (window buf offs cur) = cur - offs := by
  unfold qualifies at h
  rcases Bool.and_eq_true_iff.mp h with ⟨_, h2⟩
  have h3 : offs + D.byte_size (window buf offs cur) = cur := by simpa using h2
  omega

theorem foldl_bound {α : Type} (cur : Nat) (f : Nat → α → Nat)
    (hf : ∀ acc a, acc ≤ cur → f acc a ≤ cur) :
    ∀ (l : List α) (init : Nat), init ≤ cur → l.foldl f init ≤ cur := by
  intro l
  induction l with
  | nil => intro init h; simpa using h
  | cons a l ih => intro init h; exact ih (f init a) (hf init a h)

theorem stage1_le (D : Decoder) (buf : List Nat) (cur : Nat) : stage1 D buf cur ≤ cur := by
  unfold stage1
  refine foldl_bound cur _ ?_ _ 0 (Nat.zero_le _)
  intro acc offs hacc
  by_cases hq : qualifies D buf cur offs = true
  · rw [if_pos hq, qualifies_size D buf cur offs hq]; omega
  · rw [if_neg hq]; exact hacc

theorem stage2_le (D : Decoder) (buf : List Nat) (cur : Nat) : stage2 D buf cur ≤ cur := by
  unfold stage2
  refine foldl_bound cur _ ?_ _ 0 (Nat.zero_le _)
  intro acc offs hacc
  dsimp only
  split
  · split
    · omega
    · exact hacc
  · exact hacc

theorem stage3_le (D : Decoder) (buf : List Nat) (cur : Nat) : stage3 D buf cur ≤ cur := by
  unfold stage3
  split
  · omega
  · exact Nat.zero_le _

end Navigator

/-- C1: for every byte buffer and current-instruction offset, stage 1 of the
backward boundary search finds the longest prior instruction ending exactly at
the current offset: there is a qualifying start offset `o` that is minimal
among all qualifying offsets (hence `cur - o` is the maximal qualifying
length), `length_disasm_back` returns `cur - o`, and that value is exactly the
stage-1 result, later stages being unconsulted. -/
theorem claim_C1_stage1_longest_match (D : Navigator.Decoder) (buf : List Nat) (cur : Nat)
    (h : ∃ o, o < cur ∧ Navigator.qualifies D buf cur o = true) :
    ∃ o, o < cur ∧ Navigator.qualifies D buf cur o = true
      ∧ (∀ o', o' < cur → Navigator.qualifies D buf cur o' = true → o ≤ o')
      ∧ Navigator.length_disasm_back D buf cur = cur - o
      ∧ Navigator.length_disasm_back D buf cur = Navigator.stage1 D buf cur := by
  obtain ⟨o₀, ho₀, hq₀⟩ := h
  obtain ⟨o, hfind⟩ :=
    Navigator.find?_range_exists (Navigator.qualifies D buf cur) cur o₀ ho₀ hq₀
  obtain ⟨holt, hoq, homin⟩ := Navigator.find?_range_min (Navigator.qualifies D buf cur) cur o hfind
  have hs1 : Navigator.stage1 D buf cur = cur - o := by
    rw [Navigator.stage1_eq_find, hfind]
    exact Navigator.qualifies_size D buf cur o hoq
  have hne : Navigator.stage1 D buf cur ≠ 0 := by rw [hs1]; omega
  have hmain : Navigator.length_disasm_back D buf cur = Navigator.stage1 D buf cur := by
    simp only [Navigator.length_disasm_back]
    rw [if_pos hne]
  refine ⟨o, holt, hoq, ?_, ?_, hmain⟩
  · intro o' ho' hq'
    by_contra hlt
    push_neg at hlt
    rw [homin o' hlt] at hq'
    exact Bool.false_ne_true hq'
  · rw [hmain, hs1]

/-- Witness for C1 at a concrete decoder and buffer: with `sampleBuf` of
length 4 and current offset 2, the qualifying offsets are 0 and 1, and the
search returns 2 (the longest qualifying length, from the minimal offset 0). -/
theorem claim_C1_stage1_longest_match_witness :
    (∃ o, o < 2 ∧ Navigator.qualifies Navigator.sampleDecoder Navigator.sampleBuf 2 o = true)
    ∧ ∃ o, o < 2 ∧ Navigator.qualifies Navigator.sampleDecoder Navigator.sampleBuf 2 o = true
      ∧ (∀ o', o' < 2 → Navigator.qualifies Navigator.sampleDecoder Navigator.sampleBuf 2 o' = true → o ≤ o')
      ∧ Navigator.length_disasm_back Navigator.sampleDecoder Navigator.sampleBuf 2 = 2 - o
      ∧ Navigator.length_disasm_back Navigator.sampleDecoder Navigator.sampleBuf 2
          = Navigator.stage1 Navigator.sampleDecoder Navigator.sampleBuf 2 :=
  ⟨⟨0, by decide⟩,
   claim_C1_stage1_longest_match Navigator.sampleDecoder Navigator.sampleBuf 2 ⟨0, by decide⟩⟩

/-- C9: for every decoder, buffer and current-instruction offset, the delta
returned by `length_disasm_back` is at most the current offset, so the
caller's backward step never moves before the start of the supplied buffer. -/
theorem claim_C9_backward_delta_bounded (D : Navigator.Decoder) (buf : List Nat) (cur : Nat) :
    Navigator.length_disasm_back D buf cur ≤ cur := by
  simp only [Navigator.length_disasm_back]
  split
  · exact Navigator.stage1_le D buf cur
  · split
    · exact Navigator.stage2_le D buf cur
    · exact Navigator.stage3_le D buf cur

namespace Unix

theorem exceptionName_mem_names :
    ∀ (cat : List (Int × String)) (v : Int), v ∈ cat.map Prod.fst →
      exceptionName cat v ∈ cat.map Prod.snd := by
  intro cat
  induction cat with
  | nil => intro v hv; simp at hv
  | cons e rest ih =>
    intro v hv
    simp only [exceptionName]
    by_cases hve : v = e.1
    · rw [if_pos hve]; simp
    · rw [if_neg hve]
      simp only [List.map_cons, List.mem_cons] at hv
      rcases hv with h | h
      · exact absurd h hve
      · simp only [List.map_cons, List.mem_cons]
        exact Or.inr (ih v h)

theorem exceptionRoundTrip :
    ∀ (cat : List (Int × String)), (cat.map Prod.snd).Nodup →
      ∀ (v : Int), v ∈ cat.map Prod.fst →
        exceptionValue cat (exceptionName cat v) = v := by
  intro cat
  induction cat with
  | nil => intro _ v hv; simp at hv
  | cons e rest ih =>
    intro hnd v hv
    simp only [List.map_cons, List.nodup_cons] at hnd
    simp only [exceptionName]
    by_cases hve : v = e.1
    · rw [if_pos hve]
      simp only [exceptionValue, if_pos rfl]
      exact hve.symm
    · rw [if_neg hve]
      have hvrest : v ∈ rest.map Prod.fst := by
        simp only [List.map_cons, List.mem_cons] at hv
        rcases hv with h | h
        · exact absurd h hve
        · exact h
      have hmem := exceptionName_mem_names rest v hvrest
      have hne : exceptionName rest v ≠ e.2 := by
        intro heq
        rw [heq] at hmem
        exact hnd.1 hmem
      simp only [exceptionValue]
      rw [if_neg hne]
      exact ih hnd.2 v hvrest

theorem exceptionName_not_mem :
    ∀ (cat : List (Int × String)) (v : Int), v ∉ cat.map Prod.fst →
      exceptionName cat v = "" := by
  intro cat
  induction cat with
  | nil => intro v _; rfl
  | cons e rest ih =>
    intro v hv
    simp only [List.map_cons, List.mem_cons, not_or] at hv
    simp only [exceptionName, if_neg hv.1]
    exact ih v hv.2

theorem exceptionValue_not_mem :
    ∀ (cat : List (Int × String)) (name : String), name ∉ cat.map Prod.snd →
      exceptionValue cat name = -1 := by
  intro cat
  induction cat with
  | nil => intro name _; rfl
  | cons e rest ih =>
    intro name hn
    simp only [List.map_cons, List.mem_cons, not_or] at hn
    simp only [exceptionValue, if_neg hn.1]
    exact ih name hn.2

theorem retryIntr_eq_find (attempts : List (Int × Int)) :
    retryIntr attempts = attempts.find? (fun a => ! isEintrFailure a) := by
  induction attempts with
  | nil => rfl
  | cons a l ih =>
    simp only [retryIntr, List.find?]
    cases h : isEintrFailure a <;> simp [h, ih]

end Unix

/-- C6: for every signal number present in the signal catalog, looking up its
name and then the name's value returns the original number, even though two
catalog entries (`SIGPOLL` and `SIGIO`) share the numeric value 29. -/
theorem claim_C6_signal_roundtrip (v : Int) (hv : v ∈ Unix.Exceptions.map Prod.fst) :
    Unix.exceptionValue Unix.Exceptions (Unix.exceptionName Unix.Exceptions v) = v :=
  Unix.exceptionRoundTrip Unix.Exceptions (by decide) v hv

/-- Witness for C6 at the duplicated value 29 (carried by both `SIGPOLL` and
`SIGIO`). -/
theorem claim_C6_signal_roundtrip_witness :
    (29 : Int) ∈ Unix.Exceptions.map Prod.fst
    ∧ Unix.exceptionValue Unix.Exceptions (Unix.exceptionName Unix.Exceptions 29) = 29 :=
  ⟨by decide, claim_C6_signal_roundtrip 29 (by decide)⟩

/-- C7: for every name absent from the signal catalog, `exceptionValue`
returns the sentinel -1, and for every value absent from it, `exceptionName`
returns the empty string; both lookups are total functions. -/
theorem claim_C7_unknown_lookups (v : Int) (name : String)
    (hv : v ∉ Unix.Exceptions.map Prod.fst) (hn : name ∉ Unix.Exceptions.map Prod.snd) :
    Unix.exceptionName Unix.Exceptions v = ""
    ∧ Unix.exceptionValue Unix.Exceptions name = -1 :=
  ⟨Unix.exceptionName_not_mem Unix.Exceptions v hv,
   Unix.exceptionValue_not_mem Unix.Exceptions name hn⟩

/-- Witness for C7 at the unknown value 1000 and the unknown name
`SIGNOPE`. -/
theorem claim_C7_unknown_lookups_witness :
    ((1000 : Int) ∉ Unix.Exceptions.map Prod.fst)
    ∧ ("SIGNOPE" ∉ Unix.Exceptions.map Prod.snd)
    ∧ Unix.exceptionName Unix.Exceptions 1000 = ""
    ∧ Unix.exceptionValue Unix.Exceptions "SIGNOPE" = -1 :=
  ⟨by decide, by decide,
   (claim_C7_unknown_lookups 1000 "SIGNOPE" (by decide) (by decide)).1,
   (claim_C7_unknown_lookups 1000 "SIGNOPE" (by decide) (by decide)).2⟩

/-- C8: the retrying wrappers around read, write, select and waitpid never
return an EINTR failure: each returns the first underlying result that is not
an interrupted-by-signal failure, reissuing the call over every EINTR
result. -/
theorem claim_C8_retry_wrappers (attempts : List (Int × Int)) (r : Int × Int)
    (h : Unix.native_read attempts = some r) :
    Unix.isEintrFailure r = false
    ∧ Unix.native_read attempts = attempts.find? (fun a => ! Unix.isEintrFailure a)
    ∧ Unix.native_write attempts = attempts.find? (fun a => ! Unix.isEintrFailure a)
    ∧ Unix.native_select attempts = attempts.find? (fun a => ! Unix.isEintrFailure a)
    ∧ Unix.native_waitpid attempts = attempts.find? (fun a => ! Unix.isEintrFailure a) := by
  have hfind := Unix.retryIntr_eq_find attempts
  refine ⟨?_, hfind, hfind, hfind, hfind⟩
  have hsome : attempts.find? (fun a => ! Unix.isEintrFailure a) = some r := by
    rw [← hfind]; exact h
  have := List.find?_some hsome
  simpa using this

/-- Witness for C8: two interrupted attempts followed by a success; the
wrapper returns the success. -/
theorem claim_C8_retry_wrappers_witness :
    Unix.native_read [((-1 : Int), (4 : Int)), ((-1 : Int), (4 : Int)), ((3 : Int), (0 : Int))]
      = some ((3 : Int), (0 : Int))
    ∧ Unix.isEintrFailure ((3 : Int), (0 : Int)) = false :=
  ⟨by decide, (claim_C8_retry_wrappers [((-1 : Int), (4 : Int)), ((-1 : Int), (4 : Int)),
      ((3 : Int), (0 : Int))] ((3 : Int), (0 : Int)) (by decide)).1⟩

/-- C2 counterexample: in the x86 `get_effective_address`, a memory-expression
operand whose base register cannot be resolved from the state does not fail:
with every register unresolvable, `[reg1*1 + 5]` yields address 5 with
`ok = true` (the base contribution silently substituted by 0), contradicting
the claim that both architecture processors report failure in this case. -/
theorem claim_C2_counterexample :
    X86.emptyState.get (X86.Reg.reg 1) = none
    ∧ X86.get_effective_address
        (X86.Operand.expression (X86.Reg.reg 1) X86.Reg.invalid 1 5) 2 false false X86.emptyState
      = (5, true) :=
  ⟨rfl, by decide⟩

/-- C2 amended: only the ARM architecture processor fails when a referenced
register cannot be resolved; the x86 processor instead substitutes 0 for an
unresolvable base (or index) register of a memory expression and reports
success, failing only when a required segment base cannot be determined. -/
theorem claim_C2_amended :
    (∀ (st : X86.State) (base index : X86.Reg) (scale : Nat) (disp : Int) (sz : Nat),
        st.get base = none → base ≠ X86.Reg.rip →
        X86.get_effective_address (X86.Operand.expression base index scale disp) sz false false st
          = (u64 (((0 : Nat) : Int) + (((st.get index).getD 0 : Nat) : Int) * (scale : Int) + disp),
             true))
    ∧ (∀ (insn : ARM.Instruction) (index : ARM.CapReg) (scale disp : Int)
          (stype : ARM.Shifter) (sval : Nat) (st : ARM.State) (mode : ARM.CPUMode) (n : Fin 16),
        insn.valid = true → st.gp ((n : Nat) : Int) = none →
        (ARM.get_effective_address insn
            (ARM.Operand.expression (ARM.CapReg.gpr n) index scale disp stype sval) st
            mode).isOk = false) := by
  constructor
  · intro st base index scale disp sz hbase hrip
    simp only [X86.get_effective_address, hbase, if_neg hrip]
    cases hidx : st.get index with
    | none => simp [X86.segmentAdjust]
    | some v => simp [X86.segmentAdjust]
  · intro insn index scale disp stype sval st mode n hvalid hbase
    simp only [ARM.get_effective_address, hvalid, ARM.capstoneRegToGPRIndex]
    simp [hbase, ARM.EdbResult.isOk]

/-- Witness for C2 amended: the x86 half at an unresolvable base register
(address 7 reported with success), the ARM half at an unresolvable base
register r3 (failure reported). -/
theorem claim_C2_amended_witness :
    (X86.emptyState.get (X86.Reg.reg 2) = none
      ∧ X86.get_effective_address
          (X86.Operand.expression (X86.Reg.reg 2) X86.Reg.invalid 1 7) 3 false false X86.emptyState
        = (7, true))
    ∧ (ARM.armEmptyState.gp (((3 : Fin 16) : Nat) : Int) = none
      ∧ (ARM.get_effective_address ARM.insnAt2000
          (ARM.Operand.expression (ARM.CapReg.gpr 3) (ARM.CapReg.other 0) 1 0
            ARM.Shifter.invalid 0) ARM.armEmptyState ARM.CPUMode.arm32).isOk = false) :=
  ⟨⟨rfl,
    (claim_C2_amended.1 X86.emptyState (X86.Reg.reg 2) X86.Reg.invalid 1 7 3 rfl
      (by decide)).trans (by decide)⟩,
   ⟨rfl,
    claim_C2_amended.2 ARM.insnAt2000 (ARM.CapReg.other 0) 1 0 ARM.Shifter.invalid 0
      ARM.armEmptyState ARM.CPUMode.arm32 3 rfl rfl⟩⟩

/-- C3: for an x86-64 memory expression whose base is RIP, the instruction's
own byte length is added to the RIP value before index*scale and displacement;
in particular an instruction at 0x1000 of length 4 with operand `[rip+0x10]`
resolves to 0x1014 with success. -/
theorem claim_C3_rip_relative :
    (∀ (st : X86.State) (ripVal : Nat) (index : X86.Reg) (scale : Nat) (disp : Int) (sz : Nat),
        st.get X86.Reg.rip = some ripVal →
        X86.get_effective_address (X86.Operand.expression X86.Reg.rip index scale disp)
            sz false false st
          = (u64 (((ripVal + sz : Nat) : Int) + (((st.get index).getD 0 : Nat) : Int) * (scale : Int)
              + disp), true))
    ∧ X86.get_effective_address (X86.Operand.expression X86.Reg.rip X86.Reg.invalid 1 0x10)
        4 false false X86.ripState
      = (0x1014, true) := by
  constructor
  · intro st ripVal index scale disp sz hrip
    simp only [X86.get_effective_address, hrip, if_pos rfl]
    cases hidx : st.get index with
    | none => simp [X86.segmentAdjust]
    | some v => simp [X86.segmentAdjust]
  · decide

/-- Witness for C3: the general RIP-relative statement applied at the concrete
state with `rip = 0x1000`, instruction length 4 and displacement 0x10. -/
theorem claim_C3_rip_relative_witness :
    X86.ripState.get X86.Reg.rip = some 0x1000
    ∧ X86.get_effective_address (X86.Operand.expression X86.Reg.rip X86.Reg.invalid 1 0x10)
        4 false false X86.ripState
      = (0x1014, true) :=
  ⟨by decide,
   (claim_C3_rip_relative.1 X86.ripState 0x1000 X86.Reg.invalid 1 0x10 4 (by decide)).trans
     (by decide)⟩

/-- C4: for every ARM instruction and register index 15 (the program
counter), the effective-address PC adjustment uses the instruction's own
address plus 8 in ARM32 mode and plus 4 in Thumb mode, and fails with an
unsupported-mode error in any other CPU mode; in particular an instruction at
0x2000 in ARM32 mode with base register PC and displacement 0 resolves
to 0x2008. -/
theorem claim_C4_arm_pc_adjustment :
    (∀ (insn : ARM.Instruction) (v : Nat),
        ARM.adjustR15Value insn 15 v ARM.CPUMode.arm32 = .ok (u64 ((insn.rva : Int) + 8))
        ∧ ARM.adjustR15Value insn 15 v ARM.CPUMode.thumb = .ok (u64 ((insn.rva : Int) + 4))
        ∧ ARM.adjustR15Value insn 15 v ARM.CPUMode.other
            = .err "calculating effective address in modes other than ARM and Thumb is not supported.")
    ∧ ARM.get_effective_address ARM.insnAt2000
        (ARM.Operand.expression (ARM.CapReg.gpr 15) (ARM.CapReg.other 0) 1 0
          ARM.Shifter.invalid 0) ARM.pcOnlyState ARM.CPUMode.arm32
      = .ok 0x2008 := by
  refine ⟨fun insn v => ⟨rfl, rfl, rfl⟩, ?_⟩
  decide

/-- C5: the x86 filler classifier returns true for `nop`, for a
register-to-register `mov` with identical source and destination, and for a
`lea` whose destination equals the single base-or-index register of a memory
expression with zero displacement and scale 1, for any destination register
and any setting of the zeros-are-filling option. -/
theorem claim_C5_filler_classification (r : X86.Reg) (zf : Bool) :
    X86.is_filling ⟨true, X86.Operation.nop, [], [0x90]⟩ zf = true
    ∧ X86.is_filling
        ⟨true, X86.Operation.mov,
          [X86.Operand.register r, X86.Operand.register r], [0x89, 0xC0]⟩ zf = true
    ∧ X86.is_filling
        ⟨true, X86.Operation.lea,
          [X86.Operand.register r, X86.Operand.expression r X86.Reg.invalid 1 0],
          [0x8D, 0x00]⟩ zf = true := by
  refine ⟨rfl, ?_, ?_⟩
  · simp [X86.is_filling, X86.opValid]
  · by_cases h : r = X86.Reg.invalid <;> simp [X86.is_filling, X86.opValid, h]

/-- C10: the ARM conditional-execution predicate is negation-symmetric in the
low bit of the condition code: for every CPSR value and every even condition
code `2*k` with `k < 8`, the odd code `2*k+1` yields the negation; the never
code 0xF is false and the always code 0xE is true for every CPSR value. -/
theorem claim_C10_arm_cc_negation (cpsr : Nat) (k : Fin 8) :
    ARM.is_jcc_taken cpsr (2 * (k : Nat) + 1) = ! ARM.is_jcc_taken cpsr (2 * (k : Nat))
    ∧ ARM.is_jcc_taken cpsr 0xF = false
    ∧ ARM.is_jcc_taken cpsr 0xE = true := by
  refine ⟨?_, rfl, rfl⟩
  fin_cases k <;> rfl
